import Mathlib

/-!
Verification of the Comparison List Synchronizer of `src/MincePieVote.jsx`
(the PieVsPie repository).

The component keeps an in-memory list `comparisons` of comparison records
and mutates it with four user operations (`addComparison`, `vote`,
`resetVotes`, `deleteComparison`), synchronising the whole list to a remote
store after each mutation (`sync` / `saveData`) and loading it at startup
(`loadData`).

Shallow embedding conventions:
* a JS record becomes the structure `Comparison`; JS numeric ids
  (`Date.now() + Math.random()`) are modelled as rationals, vote counters
  as integers;
* values the code draws from the environment are explicit parameters: the
  freshly generated id and timestamp of `addComparison`, the yes/no answer
  of the blocking `confirm(...)` dialog of `resetVotes` /
  `deleteComparison`, and the outcome of a `fetch` in `loadData` /
  `saveData`;
* `fetch` outcomes are `Except Unit JsValue`: `Except.error` is a rejected
  promise (network failure, or `res.json()` throwing on an unparsable
  body), both of which land in the `catch` block of the source;
  `Except.ok` carries the parsed JSON value, which is either an array of
  records or anything else (`Array.isArray(data) ? data : []`).
-/

namespace MincePie

/-- One comparison record, the only entity of the data model
(sheet columns: id, a, b, aImg, bImg, votesA, votesB, createdAt). -/
structure Comparison where
  id : ℚ
  a : String
  b : String
  aImg : String
  bImg : String
  votesA : Int
  votesB : Int
  createdAt : String
deriving DecidableEq, Repr

/-- The add-form state: `{ a: "", b: "", aImg: "", bImg: "" }`. -/
structure Form where
  a : String
  b : String
  aImg : String
  bImg : String
deriving DecidableEq, Repr

/-- The character class JS `String.prototype.trim()` removes: the
ECMAScript WhiteSpace set (TAB U+0009, VT U+000B, FF U+000C, SPACE
U+0020, NBSP U+00A0, BOM U+FEFF, and the Unicode space separators
U+1680, U+2000..U+200A, U+202F, U+205F, U+3000) together with the
LineTerminator set (LF U+000A, CR U+000D, LS U+2028, PS U+2029). -/
def jsWhitespace (c : Char) : Bool :=
  c.val == 0x0009 || c.val == 0x000A || c.val == 0x000B ||
  c.val == 0x000C || c.val == 0x000D || c.val == 0x0020 ||
  c.val == 0x00A0 || c.val == 0x1680 ||
  (decide (0x2000 ≤ c.val) && decide (c.val ≤ 0x200A)) ||
  c.val == 0x2028 || c.val == 0x2029 || c.val == 0x202F ||
  c.val == 0x205F || c.val == 0x3000 || c.val == 0xFEFF

/-- JS `String.prototype.trim()`: drop leading and trailing
`jsWhitespace` characters.  (Defined over the character list so that it
evaluates in the kernel.) -/
def jsTrim (s : String) : String :=
  String.mk
    (((s.data.dropWhile jsWhitespace).reverse.dropWhile
      jsWhitespace).reverse)

/-- `addComparison` of the source: builds the row
`{ id: Date.now() + Math.random(), a: form.a.trim(), ..., votesA: 0,
votesB: 0, createdAt: new Date().toISOString() }` and prepends it
(`[row, ...comparisons]`).  `newId` is the environment-supplied value of
`Date.now() + Math.random()` and `createdAt` the ISO timestamp. -/
def addComparison (comparisons : List Comparison) (newId : ℚ) (form : Form)
    (createdAt : String) : List Comparison :=
  { id := newId
    a := jsTrim form.a
    b := jsTrim form.b
    aImg := jsTrim form.aImg
    bImg := jsTrim form.bImg
    votesA := 0
    votesB := 0
    createdAt := createdAt } :: comparisons

/-- `vote(id, side)` of the source: maps over the collection, and on the
record whose `id` matches bumps `votesA` when `side === "A"` and `votesB`
when `side === "B"`, spreading the rest of the record unchanged. -/
def vote (comparisons : List Comparison) (id : ℚ) (side : String) :
    List Comparison :=
  comparisons.map fun c =>
    if c.id = id then
      { c with
        votesA := if side = ("A") then c.votesA + 1 else c.votesA
        votesB := if side = ("B") then c.votesB + 1 else c.votesB }
    else c

/-- `resetVotes(id)` of the source: `if (!confirm("Reset votes?")) return;`
then maps the matching record to `{ ...c, votesA: 0, votesB: 0 }`.
`confirmed` is the answer of the blocking confirmation dialog. -/
def resetVotes (confirmed : Bool) (comparisons : List Comparison) (id : ℚ) :
    List Comparison :=
  if !confirmed then comparisons
  else
    comparisons.map fun c =>
      if c.id = id then { c with votesA := 0, votesB := 0 } else c

/-- `deleteComparison(id)` of the source:
`if (!confirm("Delete this comparison?")) return;` then
`comparisons.filter((c) => c.id !== id)`. -/
def deleteComparison (confirmed : Bool) (comparisons : List Comparison)
    (id : ℚ) : List Comparison :=
  if !confirmed then comparisons
  else comparisons.filter fun c => decide (c.id ≠ id)

/-- A parsed JSON value returned by `res.json()` on the list read: either
an array of comparison records or any other JSON value. -/
inductive JsValue where
  | arr (records : List Comparison)
  | notArray
deriving DecidableEq, Repr

/-- `loadData` of the source, restricted to its effect on `comparisons`:
`const data = await res.json(); setComparisons(Array.isArray(data) ? data : [])`,
with the whole fetch-and-parse wrapped in `try { ... } catch (e) { log }`.
A rejected fetch or a body on which `res.json()` throws is `Except.error`
and reaches the `catch`, which leaves `comparisons` untouched. -/
def loadData (prior : List Comparison) (result : Except Unit JsValue) :
    List Comparison :=
  match result with
  | Except.ok (JsValue.arr records) => records
  | Except.ok JsValue.notArray => []
  | Except.error _ => prior

/-- Body of the POST issued by `saveData(next)`:
`JSON.stringify({ action: "update", data: next })`. -/
structure PushBody where
  action : String
  data : List Comparison
deriving DecidableEq, Repr

/-- The push body `saveData` builds for a collection `next`. -/
def saveDataBody (next : List Comparison) : PushBody :=
  { action := "update", data := next }

/-- An observable step of `sync`: a state update or an issued push. -/
inductive Event where
  | setState (next : List Comparison)
  | push (body : PushBody)
deriving DecidableEq, Repr

/-- `sync(next)` of the source, as its ordered trace of effects:
`setComparisons(next); saveData(next);` — the state write happens first,
then the push of the entire new collection is issued. -/
def syncEvents (next : List Comparison) : List Event :=
  [Event.setState next, Event.push (saveDataBody next)]

/-- Effect of one event on the in-memory collection.  `pushSucceeds` is
the fate of the fetch inside `saveData`; in the source a failed push only
logs (`catch (e) { console.error(...) }`) and never touches
`comparisons`, so a push leaves the state unchanged either way. -/
def applyEvent (pushSucceeds : Bool) (s : List Comparison) :
    Event → List Comparison
  | Event.setState next => next
  | Event.push _ => match pushSucceeds with
    | true => s
    | false => s

/-- Run a trace of events over an in-memory collection. -/
def runEvents (pushSucceeds : Bool) (s : List Comparison)
    (events : List Event) : List Comparison :=
  events.foldl (applyEvent pushSucceeds) s

/-- One user operation together with the environment values it consumes. -/
inductive Op where
  | add (newId : ℚ) (form : Form) (createdAt : String)
  | vote (id : ℚ) (side : String)
  | reset (confirmed : Bool) (id : ℚ)
  | delete (confirmed : Bool) (id : ℚ)
deriving DecidableEq, Repr

/-- Apply one operation to the in-memory collection. -/
def applyOp (s : List Comparison) : Op → List Comparison
  | Op.add newId form createdAt => addComparison s newId form createdAt
  | Op.vote id side => vote s id side
  | Op.reset confirmed id => resetVotes confirmed s id
  | Op.delete confirmed id => deleteComparison confirmed s id

/-- Run a sequence of operations from the initially empty collection
(`useState([])`). -/
def runOps (ops : List Op) : List Comparison :=
  ops.foldl applyOp []

/-- The id values `Date.now() + Math.random()` drawn by the `add`
operations of a sequence, in order. -/
def addIds : List Op → List ℚ
  | [] => []
  | Op.add newId _ _ :: rest => newId :: addIds rest
  | Op.vote _ _ :: rest => addIds rest
  | Op.reset _ _ :: rest => addIds rest
  | Op.delete _ _ :: rest => addIds rest

/-- The id column of a collection. -/
def ids (s : List Comparison) : List ℚ :=
  s.map Comparison.id

/-- `pctA` computed in the render loop:
`const total = c.votesA + c.votesB;
 const pctA = total ? Math.round((c.votesA / total) * 100) : 50;`.
`Math.round` rounds half toward positive infinity, i.e. `⌊x + 1/2⌋`. -/
def jsRound (x : ℚ) : Int :=
  Int.floor (x + 1 / 2)

/-- The percentage shown for side A (`total` is truthy exactly when it is
a nonzero number). -/
def pctA (votesA votesB : Int) : Int :=
  if votesA + votesB = 0 then 50
  else jsRound ((votesA : ℚ) / ((votesA : ℚ) + (votesB : ℚ)) * 100)

/-- The percentage shown for side B: `const pctB = 100 - pctA;`. -/
def pctB (votesA votesB : Int) : Int :=
  100 - pctA votesA votesB

/-! Concrete values used by witnesses and counterexamples. -/

/-- A sample form whose name fields trim to nonempty strings. -/
def exForm : Form :=
  { a := " Mince ", b := "Apple", aImg := "", bImg := " " }

/-- A form whose left name is whitespace only: it passes the HTML
`required` check (the field is nonempty) yet trims to the empty string. -/
def wsForm : Form :=
  { a := " ", b := "Apple", aImg := "", bImg := "" }

/-- A sample record with id 1 and some votes. -/
def cEx1 : Comparison :=
  { id := 1, a := "L", b := "R", aImg := "", bImg := "", votesA := 3,
    votesB := 4, createdAt := "2024" }

/-- A sample record with id 2. -/
def cEx2 : Comparison :=
  { id := 2, a := "L2", b := "R2", aImg := "", bImg := "", votesA := 0,
    votesB := 0, createdAt := "2024" }

/-- A sample record with id 5. -/
def cEx5 : Comparison :=
  { id := 5, a := "L5", b := "R5", aImg := "", bImg := "", votesA := 0,
    votesB := 0, createdAt := "2024" }

/-- The record `addComparison` builds from `exForm` with id 7 and
timestamp `"t"` (name fields trimmed). -/
def cNew : Comparison :=
  { id := 7, a := "Mince", b := "Apple", aImg := "", bImg := "",
    votesA := 0, votesB := 0, createdAt := "t" }

/-- Two adds that observe the same `Date.now() + Math.random()` value
(same millisecond, coinciding randoms). -/
def cexOps : List Op :=
  [Op.add 1 exForm ("t"), Op.add 1 exForm ("t")]

/-- A mixed operation sequence whose generated add-ids are distinct. -/
def okOps : List Op :=
  [Op.add 1 exForm ("t"), Op.vote 1 ("A"), Op.add 2 exForm ("u"),
   Op.delete true 1, Op.reset true 2, Op.vote 2 ("B")]

/-! ## Helper lemmas -/

/-- A map whose function preserves `id` leaves the id column unchanged. -/
theorem ids_map_of_id_eq (f : Comparison → Comparison)
    (hf : ∀ c, (f c).id = c.id) (l : List Comparison) :
    ids (l.map f) = ids l := by
  unfold ids
  induction l with
  | nil => rfl
  | cons c t ih => simp only [List.map_cons, ih, hf]

/-- `vote` never changes the id column. -/
theorem ids_vote (l : List Comparison) (id : ℚ) (side : String) :
    ids (vote l id side) = ids l :=
  ids_map_of_id_eq _ (fun c => by by_cases h : c.id = id <;> simp [h]) l

/-- `resetVotes` never changes the id column. -/
theorem ids_resetVotes (confirmed : Bool) (l : List Comparison) (id : ℚ) :
    ids (resetVotes confirmed l id) = ids l := by
  cases confirmed with
  | false => rfl
  | true =>
    show ids (l.map fun c =>
      if c.id = id then { c with votesA := 0, votesB := 0 } else c) = ids l
    exact ids_map_of_id_eq _ (fun c => by by_cases h : c.id = id <;> simp [h]) l

/-- `deleteComparison` only drops ids from the id column. -/
theorem ids_delete_sublist (confirmed : Bool) (l : List Comparison) (id : ℚ) :
    (ids (deleteComparison confirmed l id)).Sublist (ids l) := by
  cases confirmed with
  | false => exact List.Sublist.refl _
  | true =>
    show ((l.filter fun c => decide (c.id ≠ id)).map Comparison.id).Sublist
      (l.map Comparison.id)
    exact (List.filter_sublist l).map Comparison.id

/-- Length accounting for the delete filter: the kept records plus the
matching records are all of them. -/
theorem filter_ne_length (l : List Comparison) (id : ℚ) :
    (l.filter fun c => decide (c.id ≠ id)).length
      + (l.filter fun c => decide (c.id = id)).length = l.length := by
  induction l with
  | nil => rfl
  | cons c t ih =>
    by_cases h : c.id = id
    · have e1 : List.filter (fun c => decide (c.id ≠ id)) (c :: t)
          = List.filter (fun c => decide (c.id ≠ id)) t := by
        rw [List.filter_cons, if_neg (by simp [h])]
      have e2 : List.filter (fun c => decide (c.id = id)) (c :: t)
          = c :: List.filter (fun c => decide (c.id = id)) t := by
        rw [List.filter_cons, if_pos (by simp [h])]
      rw [e1, e2, List.length_cons, List.length_cons]
      omega
    · have e1 : List.filter (fun c => decide (c.id ≠ id)) (c :: t)
          = c :: List.filter (fun c => decide (c.id ≠ id)) t := by
        rw [List.filter_cons, if_pos (by simp [h])]
      have e2 : List.filter (fun c => decide (c.id = id)) (c :: t)
          = List.filter (fun c => decide (c.id = id)) t := by
        rw [List.filter_cons, if_neg (by simp [h])]
      rw [e1, e2, List.length_cons, List.length_cons]
      omega

/-- `vote` on an id that matches no record is the identity. -/
theorem vote_of_no_match (l : List Comparison) (id : ℚ) (side : String)
    (h : ∀ c ∈ l, c.id ≠ id) : vote l id side = l := by
  unfold vote
  induction l with
  | nil => rfl
  | cons c t ih =>
    simp only [List.map_cons]
    rw [if_neg (h c (List.mem_cons_self c t))]
    rw [ih fun a ha => h a (List.mem_cons_of_mem c ha)]

/-! ## Claims -/

/-- C2 (amended): when confirmation is granted and exactly one record of
the collection matches `id`, `deleteComparison` removes exactly that
record: the length drops by exactly one, every surviving record is an
original record whose id differs from `id`, and every original record
whose id differs from `id` survives.  When no record matches, the
collection is unchanged (the claim's unconditional "length is exactly one
less" fails then). -/
theorem deleteComparison_removes_matching (l : List Comparison) (id : ℚ) :
    ((l.filter fun c => decide (c.id = id)).length = 1 →
      (deleteComparison true l id).length + 1 = l.length ∧
      (∀ c ∈ deleteComparison true l id, c.id ≠ id ∧ c ∈ l) ∧
      (∀ c ∈ l, c.id ≠ id → c ∈ deleteComparison true l id)) ∧
    ((∀ c ∈ l, c.id ≠ id) → deleteComparison true l id = l) := by
  have hdel : deleteComparison true l id
      = l.filter fun c => decide (c.id ≠ id) := rfl
  constructor
  · intro hcount
    refine ⟨?_, ?_, ?_⟩
    · have hpart := filter_ne_length l id
      rw [hcount] at hpart
      rw [hdel]
      omega
    · intro c hc
      rw [hdel] at hc
      have h := List.mem_filter.mp hc
      refine ⟨?_, h.1⟩
      simpa using h.2
    · intro c hc hne
      rw [hdel]
      exact List.mem_filter.mpr ⟨hc, by simpa using hne⟩
  · intro hall
    rw [hdel]
    apply List.filter_eq_self.mpr
    intro c hc
    simpa using hall c hc

/-- C2 witness: deleting id 1 from a two-record collection holding ids 1
and 2 shrinks the length from 2 to 1. -/
theorem deleteComparison_removes_matching_witness :
    (deleteComparison true [cEx1, cEx2] 1).length + 1 =
      ([cEx1, cEx2] : List Comparison).length :=
  ((deleteComparison_removes_matching [cEx1, cEx2] 1).1 (by decide)).1

/-- C2 counterexample: deleting an id that matches no record (id 2 from a
collection whose only record has id 1) leaves the length unchanged, so the
length is not "exactly one less than before" for every collection and id. -/
theorem deleteComparison_counterexample :
    ¬ ((deleteComparison true [cEx1] 2).length + 1 =
      ([cEx1] : List Comparison).length) := by
  decide

/-- C3: without confirmation `resetVotes` leaves the collection (hence
every record's counters) unchanged; with confirmation every record
matching `id` ends with both counters zero. -/
theorem resetVotes_confirmation_gate (l : List Comparison) (id : ℚ) :
    resetVotes false l id = l ∧
    ∀ c ∈ resetVotes true l id, c.id = id → c.votesA = 0 ∧ c.votesB = 0 := by
  refine ⟨rfl, ?_⟩
  intro c hc
  have hc' : c ∈ l.map fun a =>
      if a.id = id then { a with votesA := 0, votesB := 0 } else a := hc
  rcases List.mem_map.mp hc' with ⟨a, _, rfl⟩
  by_cases h : a.id = id <;> simp [h]

/-- C3 witness: resetting id 1 in a one-record collection with votes 3/4
zeroes both counters of the matching record. -/
theorem resetVotes_confirmation_gate_witness :
    resetVotes false [cEx1] 1 = [cEx1] ∧
    ({ cEx1 with votesA := 0, votesB := 0 } : Comparison).votesA = 0 ∧
    ({ cEx1 with votesA := 0, votesB := 0 } : Comparison).votesB = 0 := by
  have h := resetVotes_confirmation_gate [cEx1] 1
  exact ⟨h.1, h.2 _ (by decide) (by decide)⟩

/-- C4: `vote(id, "A")` keeps the length, rewrites the collection
pointwise so that exactly the records matching `id` get `votesA` bumped by
one with every other field (including `votesB`) unchanged and every
non-matching record kept identical, and is the identity when no record
matches. -/
theorem vote_A_frame (l : List Comparison) (id : ℚ) :
    (vote l id ("A")).length = l.length ∧
    vote l id ("A") =
      l.map (fun c => if c.id = id then { c with votesA := c.votesA + 1 }
        else c) ∧
    ((∀ c ∈ l, c.id ≠ id) → vote l id ("A") = l) := by
  refine ⟨List.length_map _ _, ?_, vote_of_no_match l id ("A")⟩
  unfold vote
  apply List.map_congr_left
  intro c _
  by_cases h : c.id = id <;> simp [h]

/-- C4 witness: voting A on id 1 bumps `cEx1`'s `votesA` from 3 to 4 and
leaves `votesB` and the rest of the record alone; voting on the absent id
9 leaves the collection unchanged. -/
theorem vote_A_frame_witness :
    vote [cEx1] 1 ("A") =
      [{ cEx1 with votesA := cEx1.votesA + 1 }] ∧
    vote [cEx1] 9 ("A") = [cEx1] := by
  constructor
  · have h := (vote_A_frame [cEx1] 1).2.1
    simpa using h
  · exact (vote_A_frame [cEx1] 9).2.2 (by decide)

/-- C5 (amended): `addComparison` returns the new record consed onto the
old collection (newest first), the new record has both counters zero and
carries the environment-generated id, and that id is distinct from every
existing record's id provided the generated value is fresh (not already an
id of the collection).  Unconditional distinctness fails: the generated
`Date.now() + Math.random()` is an environment value that can coincide
with an existing id. -/
theorem addComparison_prepends_fresh (l : List Comparison) (newId : ℚ)
    (form : Form) (createdAt : String) :
    (addComparison l newId form createdAt).tail = l ∧
    ∀ r, (addComparison l newId form createdAt).head? = some r →
      r.votesA = 0 ∧ r.votesB = 0 ∧ r.id = newId ∧
      (newId ∉ ids l → ∀ c ∈ l, r.id ≠ c.id) := by
  refine ⟨rfl, ?_⟩
  intro r hr
  cases hr
  refine ⟨rfl, rfl, rfl, ?_⟩
  intro hfresh c hc heq
  apply hfresh
  have hmem : c.id ∈ ids l := List.mem_map_of_mem Comparison.id hc
  rw [← heq] at hmem
  exact hmem

/-- C5 witness: adding with fresh id 7 to `[cEx1]` prepends a record with
zero counters whose id differs from the existing id 1. -/
theorem addComparison_prepends_fresh_witness :
    (addComparison [cEx1] 7 exForm ("t")).tail = [cEx1] ∧
    cNew.votesA = 0 ∧ cNew.votesB = 0 ∧ cNew.id = 7 ∧ cNew.id ≠ cEx1.id := by
  have h := addComparison_prepends_fresh [cEx1] 7 exForm ("t")
  have h2 := h.2 cNew (by decide)
  exact ⟨h.1, h2.1, h2.2.1, h2.2.2.1,
    h2.2.2.2 (by decide) cEx1 (by decide)⟩

/-- C5 counterexample: when the environment hands `addComparison` the
value 5 as `Date.now() + Math.random()` and the collection already holds a
record with id 5, the new record's id equals an existing id — the id
column of the result is `[5, 5]`, not pairwise distinct. -/
theorem addComparison_fresh_id_counterexample :
    ¬ (ids (addComparison [cEx5] 5 exForm ("t"))).Nodup := by
  decide

/-- C6 (amended): a successful read whose parsed body is not an array
replaces the collection with the empty collection, but a body on which
parsing fails throws inside the `try`, lands in `catch`, and leaves the
prior collection untouched — it is handled like a load failure, not like a
malformed-but-parsed response. -/
theorem loadData_malformed_empty (prior : List Comparison) :
    loadData prior (Except.ok JsValue.notArray) = [] ∧
    loadData prior (Except.error ()) = prior :=
  ⟨rfl, rfl⟩

/-- C6 counterexample: with a nonempty prior collection, a response whose
body fails to parse (a rejected `res.json()`, i.e. `Except.error`) leaves
the prior collection in place instead of setting the empty collection. -/
theorem loadData_parse_failure_counterexample :
    ¬ (loadData [cEx1] (Except.error ()) = []) := by
  decide

/-- C7: a failed load (network error, or a body that does not parse)
leaves the in-memory collection exactly as it was before the call. -/
theorem loadData_failure_keeps_state (prior : List Comparison) (e : Unit) :
    loadData prior (Except.error e) = prior :=
  rfl

/-- C8: `sync(next)` first writes `next` to the in-memory state and only
then issues the push, the push body carries the entire new collection, and
running the trace leaves the state at `next` whether the push succeeds or
fails (no rollback). -/
theorem sync_optimistic_push (prior next : List Comparison)
    (pushSucceeds : Bool) :
    syncEvents next =
      [Event.setState next, Event.push { action := "update", data := next }] ∧
    (syncEvents next).head? = some (Event.setState next) ∧
    runEvents pushSucceeds prior (syncEvents next) = next := by
  refine ⟨rfl, rfl, ?_⟩
  cases pushSucceeds <;> rfl

/-- C9 (amended): the record `addComparison` creates carries the trimmed
form names, so `a` and `b` are nonempty exactly when the trimmed inputs
are; a whitespace-only input (accepted by the HTML `required` check)
yields an empty name, so unconditional nonemptiness fails. -/
theorem addComparison_trimmed_names (l : List Comparison) (newId : ℚ)
    (form : Form) (createdAt : String) (r : Comparison)
    (hr : (addComparison l newId form createdAt).head? = some r) :
    r.a = jsTrim form.a ∧ r.b = jsTrim form.b ∧
    (jsTrim form.a ≠ "" → r.a ≠ "") ∧ (jsTrim form.b ≠ "" → r.b ≠ "") := by
  cases hr
  exact ⟨rfl, rfl, fun h => h, fun h => h⟩

/-- C9 witness: from `exForm` (names that trim to "Mince" and "Apple") the
created record has nonempty `a` and `b`. -/
theorem addComparison_trimmed_names_witness :
    cNew.a ≠ "" ∧ cNew.b ≠ "" := by
  have h := addComparison_trimmed_names [] 7 exForm ("t") cNew (by decide)
  exact ⟨h.2.2.1 (by decide), h.2.2.2 (by decide)⟩

/-- C9 counterexample: from `wsForm`, whose left name is a single space,
the created record's `a` field is the empty string. -/
theorem addComparison_empty_name_counterexample :
    ¬ (∀ r ∈ addComparison [] 1 wsForm ("t"), r.a ≠ "") := by
  decide

/-- Invariant-preservation core for C1: running operations keeps the id
column duplicate-free, provided the current ids are duplicate-free and
disjoint from the ids the remaining adds will draw, and those are
themselves pairwise distinct. -/
theorem runOps_nodup_aux (ops : List Op) :
    ∀ s : List Comparison, (ids s).Nodup →
      (∀ i ∈ ids s, i ∉ addIds ops) → (addIds ops).Nodup →
      (ids (ops.foldl applyOp s)).Nodup := by
  induction ops with
  | nil => intro s hs _ _; exact hs
  | cons op rest ih =>
    intro s hs havoid hnodup
    rw [List.foldl_cons]
    cases op with
    | add newId form createdAt =>
      have hids : ids (applyOp s (Op.add newId form createdAt))
          = newId :: ids s := rfl
      apply ih
      · rw [hids]
        refine List.nodup_cons.mpr ⟨?_, hs⟩
        intro hmem
        exact havoid newId hmem (List.mem_cons_self _ _)
      · rw [hids]
        intro i hi
        rcases List.mem_cons.mp hi with h | h
        · subst h
          exact (List.nodup_cons.mp hnodup).1
        · intro hmem
          exact havoid i h (List.mem_cons_of_mem _ hmem)
      · exact (List.nodup_cons.mp hnodup).2
    | vote id side =>
      have hids : ids (applyOp s (Op.vote id side)) = ids s :=
        ids_vote s id side
      apply ih
      · rw [hids]; exact hs
      · rw [hids]; exact havoid
      · exact hnodup
    | reset confirmed id =>
      have hids : ids (applyOp s (Op.reset confirmed id)) = ids s :=
        ids_resetVotes confirmed s id
      apply ih
      · rw [hids]; exact hs
      · rw [hids]; exact havoid
      · exact hnodup
    | delete confirmed id =>
      have hsub : (ids (applyOp s (Op.delete confirmed id))).Sublist (ids s) :=
        ids_delete_sublist confirmed s id
      apply ih
      · exact hsub.nodup hs
      · intro i hi
        exact havoid i (hsub.subset hi)
      · exact hnodup

/-- Non-negativity core for C1: every operation keeps all vote counters
non-negative. -/
theorem runOps_nonneg_aux (ops : List Op) :
    ∀ s : List Comparison, (∀ c ∈ s, 0 ≤ c.votesA ∧ 0 ≤ c.votesB) →
      ∀ c ∈ ops.foldl applyOp s, 0 ≤ c.votesA ∧ 0 ≤ c.votesB := by
  induction ops with
  | nil => intro s hs; exact hs
  | cons op rest ih =>
    intro s hs
    rw [List.foldl_cons]
    apply ih
    intro c hc
    cases op with
    | add newId form createdAt =>
      rcases List.mem_cons.mp hc with h | h
      · subst h
        exact ⟨le_refl 0, le_refl 0⟩
      · exact hs c h
    | vote id side =>
      have hc' : c ∈ s.map fun a =>
          if a.id = id then
            { a with
              votesA := if side = ("A") then a.votesA + 1 else a.votesA
              votesB := if side = ("B") then a.votesB + 1 else a.votesB }
          else a := hc
      rcases List.mem_map.mp hc' with ⟨a, ha, rfl⟩
      obtain ⟨h1, h2⟩ := hs a ha
      by_cases hid : a.id = id
      · simp only [if_pos hid]
        constructor <;> split <;> omega
      · simp only [if_neg hid]
        exact ⟨h1, h2⟩
    | reset confirmed id =>
      cases confirmed with
      | false => exact hs c hc
      | true =>
        have hc' : c ∈ s.map fun a =>
            if a.id = id then { a with votesA := 0, votesB := 0 } else a := hc
        rcases List.mem_map.mp hc' with ⟨a, ha, rfl⟩
        obtain ⟨h1, h2⟩ := hs a ha
        by_cases hid : a.id = id <;> simp [hid]
        omega
    | delete confirmed id =>
      cases confirmed with
      | false => exact hs c hc
      | true =>
        have hc' : c ∈ s.filter fun a => decide (a.id ≠ id) := hc
        exact hs c (List.mem_filter.mp hc').1

/-- C1 (amended): for every finite sequence of add / vote / reset /
delete operations on the initially empty collection, the result has
pairwise-distinct ids and non-negative counters, provided the
`Date.now() + Math.random()` values the adds observe are pairwise
distinct.  Unconditionally the ids part fails: two adds in the same
millisecond can draw coinciding randoms and then observe the same value. -/
theorem runOps_unique_ids_nonneg (ops : List Op)
    (h : (addIds ops).Nodup) :
    (runOps ops).Pairwise (fun c d => c.id ≠ d.id) ∧
    ∀ c ∈ runOps ops, 0 ≤ c.votesA ∧ 0 ≤ c.votesB := by
  constructor
  · have hnodup : (ids (runOps ops)).Nodup :=
      runOps_nodup_aux ops [] (by simp [ids]) (by simp [ids]) h
    exact List.pairwise_map.mp hnodup
  · exact runOps_nonneg_aux ops [] (by simp)

/-- C1 witness: a six-operation sequence with distinct generated add-ids
ends with pairwise-distinct ids. -/
theorem runOps_unique_ids_nonneg_witness :
    (runOps okOps).Pairwise (fun c d => c.id ≠ d.id) :=
  (runOps_unique_ids_nonneg okOps (by decide)).1

/-- C1 counterexample: when the two adds of `cexOps` observe the same
`Date.now() + Math.random()` value (same millisecond, coinciding
randoms), the final collection holds two records with equal ids, so the
unconditional claim fails. -/
theorem runOps_unique_ids_counterexample :
    ¬ ((runOps cexOps).Pairwise (fun c d => c.id ≠ d.id) ∧
       ∀ c ∈ runOps cexOps, 0 ≤ c.votesA ∧ 0 ≤ c.votesB) := by
  decide

/-- C10: with non-negative integer counters, the displayed percentages
always sum to 100, `pctA` lies between 0 and 100, it equals
`Math.round((votesA / total) * 100)` (round half up) whenever some votes
exist, and it is the even 50/50 split when both counters are zero. -/
theorem pct_display (vA vB : Int) (hA : 0 ≤ vA) (hB : 0 ≤ vB) :
    pctA vA vB + pctB vA vB = 100 ∧
    0 ≤ pctA vA vB ∧ pctA vA vB ≤ 100 ∧
    (0 < vA + vB →
      pctA vA vB = jsRound ((vA : ℚ) / ((vA : ℚ) + (vB : ℚ)) * 100)) ∧
    (vA = 0 ∧ vB = 0 → pctA vA vB = 50) := by
  have hsum : pctA vA vB + pctB vA vB = 100 := by
    unfold pctB
    omega
  have hbounds : 0 ≤ pctA vA vB ∧ pctA vA vB ≤ 100 := by
    unfold pctA
    by_cases h : vA + vB = 0
    · rw [if_pos h]
      norm_num
    · rw [if_neg h]
      have htot : 0 < vA + vB := by omega
      have htotQ : (0 : ℚ) < (vA : ℚ) + (vB : ℚ) := by exact_mod_cast htot
      have hAQ : (0 : ℚ) ≤ (vA : ℚ) := by exact_mod_cast hA
      have hBQ : (0 : ℚ) ≤ (vB : ℚ) := by exact_mod_cast hB
      set q : ℚ := (vA : ℚ) / ((vA : ℚ) + (vB : ℚ)) * 100 with hq
      have hq0 : 0 ≤ q := by
        apply mul_nonneg
        · exact div_nonneg hAQ (le_of_lt htotQ)
        · norm_num
      have hq100 : q ≤ 100 := by
        have hdiv : (vA : ℚ) / ((vA : ℚ) + (vB : ℚ)) ≤ 1 := by
          rw [div_le_one htotQ]
          linarith
        calc q = (vA : ℚ) / ((vA : ℚ) + (vB : ℚ)) * 100 := hq
          _ ≤ 1 * 100 := by
              apply mul_le_mul_of_nonneg_right hdiv
              norm_num
          _ = 100 := by norm_num
      constructor
      · unfold jsRound
        apply Int.le_floor.mpr
        push_cast
        linarith
      · unfold jsRound
        have h1 : ((Int.floor (q + 1 / 2) : Int) : ℚ) ≤ q + 1 / 2 :=
          Int.floor_le _
        have h2 : ((Int.floor (q + 1 / 2) : Int) : ℚ) < ((101 : Int) : ℚ) := by
          push_cast
          linarith
        have h3 : Int.floor (q + 1 / 2) < (101 : Int) := by
          exact_mod_cast h2
        omega
  refine ⟨hsum, hbounds.1, hbounds.2, ?_, ?_⟩
  · intro h
    unfold pctA
    rw [if_neg (by omega)]
  · rintro ⟨h1, h2⟩
    subst h1
    subst h2
    rfl

/-- C10 witness: with 3 votes for A and 1 for B the percentages sum to
100 (`pctA` is 75). -/
theorem pct_display_witness :
    pctA 3 1 + pctB 3 1 = 100 :=
  (pct_display 3 1 (by decide) (by decide)).1

end MincePie
